import Mathlib

/-!
Verification development for the `payload.bin` extractor
(`extract_payload.py`): a shallow embedding of its wire decoder,
manifest model builder, operation executor and extraction
orchestrator, followed by theorems about the embedded functions.

Bytes are modelled as `Nat` (every byte of a real input is `< 256`);
byte strings are `List Nat`.  Fallible code (Python `raise`) is
modelled with `Except`; the distinct exception messages of the source
become distinct constructors of the error types below.  The two
stdlib collaborators that the source calls — `hashlib.sha256` and the
`lzma`/`bz2` decompressors — are parameters of the embedded executor
(a codec returns `none` where the library would raise).
-/

deriving instance DecidableEq for Except

namespace PayloadExtractor

/-- Operation type tags, from the constants at the top of the source. -/
def OP_REPLACE : Nat := 0

def OP_REPLACE_BZ : Nat := 1

def OP_SOURCE_COPY : Nat := 4

def OP_SOURCE_BSDIFF : Nat := 5

def OP_ZERO : Nat := 6

def OP_REPLACE_XZ : Nat := 8

def OP_PUFFDIFF : Nat := 9

/-- `OP_NAMES.get(op_type, op_type)`: display name of an operation kind,
falling back to the numeric tag. -/
def opDisplay (k : Nat) : String :=
  if k = 0 then "REPLACE"
  else if k = 1 then "REPLACE_BZ"
  else if k = 4 then "SOURCE_COPY"
  else if k = 5 then "SOURCE_BSDIFF"
  else if k = 6 then "ZERO"
  else if k = 8 then "REPLACE_XZ"
  else if k = 9 then "PUFFDIFF"
  else if k = 14 then "ZSTD"
  else if k = 15 then "LZ4"
  else toString k

/-- Errors raised while decoding the wire format or the container header.
Each constructor corresponds to one distinct `raise` site (or stdlib
exception) of the source; `outOfFuel` is the marker of the explicit
recursion bound used to embed the `while` loop of `iter_fields`, and is
proved unreachable below. -/
inductive Err where
  | truncatedVarint
  | structError (nbytes : Nat)
  | unknownWireType (wt : Nat)
  | invalidMagic (magic : List Nat)
  | unsupportedVersion (v : Nat)
  | outOfFuel
deriving DecidableEq

/-- A decoded wire value: a varint / fixed integer, or a byte slice. -/
inductive WireValue where
  | int (n : Nat)
  | bytes (bs : List Nat)
deriving DecidableEq

/-- The loop body of `read_varint`, embedded on the suffix of the buffer
that starts at the cursor.  Returns the decoded value together with the
number of bytes consumed; the caller adds the start position back.
Mirrors: `result |= (byte & 0x7F) << shift`, stop when `byte < 0x80`,
`raise ValueError("Truncated varint")` at the end of the buffer. -/
def readVarintAux : List Nat → Nat → Nat → Except Err (Nat × Nat)
  | [], _, _ => .error .truncatedVarint
  | b :: rest, shift, acc =>
    let acc2 := acc ||| ((b &&& 0x7F) <<< shift)
    if b < 0x80 then .ok (acc2, 1)
    else
      match readVarintAux rest (shift + 7) acc2 with
      | .ok (v, c) => .ok (v, c + 1)
      | .error e => .error e

/-- `read_varint(data, pos)`: returns `(value, new_position)`. -/
def read_varint (data : List Nat) (pos : Nat) : Except Err (Nat × Nat) :=
  match readVarintAux (data.drop pos) 0 0 with
  | .ok (v, c) => .ok (v, pos + c)
  | .error e => .error e

/-- Little-endian integer of a byte slice (`struct.unpack("<Q", ...)` /
`struct.unpack("<I", ...)`). -/
def leNum (bs : List Nat) : Nat :=
  bs.foldr (fun b acc => b + 256 * acc) 0

/-- Big-endian integer of a byte slice (`struct.unpack(">Q", ...)` /
`struct.unpack(">I", ...)`). -/
def beNum (bs : List Nat) : Nat :=
  bs.foldl (fun acc b => acc * 256 + b) 0

/-- Decoding of one field value of `iter_fields`, given the wire type and
the suffix of the buffer that follows the tag varint.  Returns the value
and the number of bytes consumed.  Wire type 2 slices
`data[pos:pos + length]`, which in the source silently clamps to the end
of the buffer; wire types 1 and 5 unpack exactly 8 / 4 bytes, and the
stdlib raises `struct.error` when fewer remain. -/
def readFieldValue (wireType : Nat) (rest : List Nat) : Except Err (WireValue × Nat) :=
  if wireType = 0 then
    match readVarintAux rest 0 0 with
    | .ok (v, c) => .ok (.int v, c)
    | .error e => .error e
  else if wireType = 2 then
    match readVarintAux rest 0 0 with
    | .ok (len, c) => .ok (.bytes ((rest.drop c).take len), c + len)
    | .error e => .error e
  else if wireType = 1 then
    if 8 ≤ rest.length then .ok (.int (leNum (rest.take 8)), 8)
    else .error (.structError 8)
  else if wireType = 5 then
    if 4 ≤ rest.length then .ok (.int (leNum (rest.take 4)), 4)
    else .error (.structError 4)
  else .error (.unknownWireType wireType)

/-- The `while pos < len(data)` loop of `iter_fields`, embedded on the
remaining suffix of the buffer with an explicit recursion bound.  Every
loop iteration consumes at least one byte (the tag varint), so a bound
of `data.length` suffices and the `outOfFuel` branch is unreachable
(proved below). -/
def iterFieldsAux : Nat → List Nat → Except Err (List (Nat × WireValue))
  | _, [] => .ok []
  | 0, _ :: _ => .error .outOfFuel
  | fuel + 1, b :: rest =>
    match readVarintAux (b :: rest) 0 0 with
    | .error e => .error e
    | .ok (tag, c1) =>
      match readFieldValue (tag % 8) ((b :: rest).drop c1) with
      | .error e => .error e
      | .ok (v, c2) =>
        match iterFieldsAux fuel ((b :: rest).drop (c1 + c2)) with
        | .error e => .error e
        | .ok fields => .ok ((tag / 8, v) :: fields)

/-- `iter_fields(data)`: the finite sequence of `(field_number, value)`
pairs, or the first decoding error. -/
def iter_fields (data : List Nat) : Except Err (List (Nat × WireValue)) :=
  iterFieldsAux data.length data

/-- The `Operation` dataclass.  `data_sha256` is empty when the manifest
carries no digest (Python `b''`, which is falsy). -/
structure Operation where
  op_type : Nat := 0
  data_offset : Nat := 0
  data_length : Nat := 0
  dst_extents : List (Nat × Nat) := []
  data_sha256 : List Nat := []
deriving DecidableEq

/-- The `Partition` dataclass.  The source stores the UTF-8 decoded
string; the model keeps the raw name bytes (equality of valid UTF-8
encodings coincides with equality of the decoded strings). -/
structure Partition where
  name : List Nat := []
  operations : List Operation := []
  size : Nat := 0
deriving DecidableEq

/-- The `Payload` dataclass (the source also stores the file path; the
model passes the file bytes to the executors explicitly). -/
structure Payload where
  data_offset : Nat := 0
  block_size : Nat := 4096
  partitions : List Partition := []
deriving DecidableEq

/-- One iteration of the field loop of `parse_operation`.  The source is
dynamically typed: a field of the expected number but unexpected wire
type would store an ill-typed value that no later code path of the
claims observes; the typed model ignores such fields, like it ignores
unknown field numbers. -/
def applyOpField (op : Operation) (fv : Nat × WireValue) : Except Err Operation :=
  match fv with
  | (1, .int v) => .ok { op with op_type := v }
  | (2, .int v) => .ok { op with data_offset := v }
  | (3, .int v) => .ok { op with data_length := v }
  | (6, .bytes ext) =>
    match iter_fields ext with
    | .error e => .error e
    | .ok fields =>
      let sn := fields.foldl
        (fun (sn : Nat × Nat) fv =>
          match fv with
          | (1, .int v) => (v, sn.2)
          | (2, .int v) => (sn.1, v)
          | _ => sn) (0, 0)
      .ok { op with dst_extents := op.dst_extents ++ [sn] }
  | (8, .bytes d) => .ok { op with data_sha256 := d }
  | _ => .ok op

/-- `parse_operation(data)`: fold the decoded fields over a fresh
`Operation`.  An unrecognized `op_type` tag is stored numerically,
never rejected. -/
def parse_operation (data : List Nat) : Except Err Operation :=
  match iter_fields data with
  | .error e => .error e
  | .ok fields => fields.foldlM applyOpField {}

/-- One iteration of the field loop of `parse_partition`. -/
def applyPartField (p : Partition) (fv : Nat × WireValue) : Except Err Partition :=
  match fv with
  | (1, .bytes nm) => .ok { p with name := nm }
  | (7, .bytes info) =>
    match iter_fields info with
    | .error e => .error e
    | .ok fields =>
      let sz := fields.foldl
        (fun s fv => match fv with | (1, .int v) => v | _ => s) p.size
      .ok { p with size := sz }
  | (8, .bytes opData) =>
    match parse_operation opData with
    | .error e => .error e
    | .ok op => .ok { p with operations := p.operations ++ [op] }
  | _ => .ok p

/-- `parse_partition(data)`. -/
def parse_partition (data : List Nat) : Except Err Partition :=
  match iter_fields data with
  | .error e => .error e
  | .ok fields => fields.foldlM applyPartField {}

/-- `CrAU`, the container magic. -/
def payloadMagic : List Nat := [0x43, 0x72, 0x41, 0x55]

/-- One iteration of the manifest field loop of `load_payload`: field 3
sets the block size, each occurrence of field 13 appends one partition. -/
def applyManifestField (pl : Payload) (fv : Nat × WireValue) : Except Err Payload :=
  match fv with
  | (3, .int v) => .ok { pl with block_size := v }
  | (13, .bytes pd) =>
    match parse_partition pd with
    | .error e => .error e
    | .ok part => .ok { pl with partitions := pl.partitions ++ [part] }
  | _ => .ok pl

/-- `load_payload(path)`, on the container bytes.  `f.read(n)` clamps at
the end of the file (so a short magic read just fails the comparison and
a short manifest read yields a short manifest), while `struct.unpack`
raises when its exact-width slice is short. -/
def load_payload (file : List Nat) : Except Err Payload :=
  if file.take 4 ≠ payloadMagic then .error (.invalidMagic (file.take 4))
  else if file.length < 12 then .error (.structError 8)
  else
    let version := beNum ((file.drop 4).take 8)
    if version ≠ 2 then .error (.unsupportedVersion version)
    else if file.length < 20 then .error (.structError 8)
    else if file.length < 24 then .error (.structError 4)
    else
      let manifestSize := beNum ((file.drop 12).take 8)
      let signatureSize := beNum ((file.drop 20).take 4)
      let manifestData := (file.drop 24).take manifestSize
      match iter_fields manifestData with
      | .error e => .error e
      | .ok fields =>
        fields.foldlM applyManifestField
          { data_offset := 24 + manifestSize + signatureSize }

/-- A decompression collaborator (`lzma.decompress` / `bz2.decompress`):
`none` where the library would raise. -/
abbrev Codec := List Nat → Option (List Nat)

/-- Failure of `decompress`: the explicit
`raise ValueError("Unsupported: " + OP_NAMES.get(op_type, op_type))`
for a kind outside the three replace kinds (the carried tag names the
kind, as `opDisplay` renders it), or a codec library exception. -/
inductive DecompErr where
  | unsupported (k : Nat)
  | codecFailure
deriving DecidableEq

/-- `decompress(data, op_type)`. -/
def decompress (xz bz : Codec) (data : List Nat) (opType : Nat) : Except DecompErr (List Nat) :=
  if opType = OP_REPLACE then .ok data
  else if opType = OP_REPLACE_XZ then
    match xz data with
    | some d => .ok d
    | none => .error .codecFailure
  else if opType = OP_REPLACE_BZ then
    match bz data with
    | some d => .ok d
    | none => .error .codecFailure
  else .error (.unsupported opType)

/-- Failure of one executed operation: the
`raise ValueError("Incremental op not supported: ...")` for the three
incremental kinds, the hash-mismatch early return, or the caught
decompression exception (`return False` in the source). -/
inductive OpErr where
  | incremental (k : Nat)
  | hashMismatch
  | decompFailed (e : DecompErr)
deriving DecidableEq

/-- The destination file state: the `(seek offset, bytes)` write events
issued so far, in program order.  The output file is opened fresh
(`"wb"`), so a partition starts from the empty event list. -/
abbrev FileWrites := List (Nat × List Nat)

/-- The extent-writing loop of `extract_partition`:
`size = num * bs; f_out.seek(start * bs); f_out.write(data[pos:pos + size]);
pos += size` — a cursor `pos` advancing through the decompressed buffer,
extents consumed in declared order.  Python slicing clamps at the end of
the buffer, as `take` does. -/
def writeExtents (bs : Nat) (exts : List (Nat × Nat)) (data : List Nat) (pos : Nat) :
    FileWrites :=
  match exts with
  | [] => []
  | (start, num) :: rest =>
    (start * bs, (data.drop pos).take (num * bs)) :: writeExtents bs rest data (pos + num * bs)

/-- The body of the per-operation loop of `extract_partition`, for one
operation: zero-fill, reject incremental kinds, otherwise read the
compressed buffer from the payload file (`f_in.read` clamps at the end
of the file), verify the digest when one is present, decompress, and
write the buffer through the extents.  Returns the destination write
events after this operation, and the failure if it failed (the state is
unchanged on failure: no write precedes the checks). -/
def execOp (sha : List Nat → List Nat) (xz bz : Codec) (file : List Nat)
    (dataOffset bs : Nat) (op : Operation) (st : FileWrites) :
    FileWrites × Option OpErr :=
  if op.op_type = OP_ZERO then
    (st ++ op.dst_extents.map (fun e => (e.1 * bs, List.replicate (e.2 * bs) 0)), none)
  else if op.op_type = OP_SOURCE_COPY ∨ op.op_type = OP_SOURCE_BSDIFF ∨
      op.op_type = OP_PUFFDIFF then
    (st, some (.incremental op.op_type))
  else
    let compressed := (file.drop (dataOffset + op.data_offset)).take op.data_length
    if op.data_sha256 ≠ [] ∧ sha compressed ≠ op.data_sha256 then
      (st, some .hashMismatch)
    else
      match decompress xz bz compressed op.op_type with
      | .error e => (st, some (.decompFailed e))
      | .ok data => (st ++ writeExtents bs op.dst_extents data 0, none)

/-- The operation loop of `extract_partition`: run the operations in
manifest order, stopping at the first failure (hash mismatch and codec
failure `return False`; the incremental-kind `raise` also leaves the
loop — the model records which failure occurred in the `OpErr`). -/
def runOps (sha : List Nat → List Nat) (xz bz : Codec) (file : List Nat)
    (dataOffset bs : Nat) : List Operation → FileWrites → FileWrites × Option OpErr
  | [], st => (st, none)
  | op :: rest, st =>
    match execOp sha xz bz file dataOffset bs op st with
    | (st2, none) => runOps sha xz bz file dataOffset bs rest st2
    | (st2, some e) => (st2, some e)

/-- `extract_partition(payload, partition, output_path)`: the write
events against the freshly created output file, and the first failure
if any. -/
def extract_partition (sha : List Nat → List Nat) (xz bz : Codec) (file : List Nat)
    (pl : Payload) (part : Partition) : FileWrites × Option OpErr :=
  runOps sha xz bz file pl.data_offset pl.block_size part.operations []

/-- `cmd_list(payload)`: the listing rows `(name, size, operation count)`,
one per partition, in manifest order.  Pure: touches no destination
file. -/
def cmd_list (pl : Payload) : List (List Nat × Nat × Nat) :=
  pl.partitions.map (fun p => (p.name, p.size, p.operations.length))

/-- The `by_name` lookup of `cmd_extract`: a dict comprehension keyed by
name, so a duplicated name resolves to the last partition carrying it. -/
def byName (parts : List Partition) (nm : List Nat) : Option Partition :=
  parts.reverse.find? (fun p => p.name == nm)

/-- Outcome of `cmd_extract`.  `unknownName` is the early validation
failure: it precedes `output_dir.mkdir` and every partition extraction,
so it carries no events — no file or directory is created.  The carried
`available` list holds the names of the payload partitions (the source
formats them sorted and deduplicated for display). -/
inductive ExtractOutcome where
  | unknownName (missing : List Nat) (available : List (List Nat))
  | failed (events : List (List Nat × FileWrites)) (err : OpErr)
  | ok (events : List (List Nat × FileWrites))
deriving DecidableEq

/-- The destination-side events an extraction outcome carries: one
`(partition name, write events)` entry per output file created. -/
def eventsOf : ExtractOutcome → List (List Nat × FileWrites)
  | .unknownName _ _ => []
  | .failed ev _ => ev
  | .ok ev => ev

/-- The extraction loop of `cmd_extract`, after validation: extract each
requested partition in the caller-given order, stopping at the first
failure.  The `none` branch of the lookup is unreachable after
validation. -/
def extractLoop (sha : List Nat → List Nat) (xz bz : Codec) (file : List Nat)
    (pl : Payload) : List (List Nat) → List (List Nat × FileWrites) → ExtractOutcome
  | [], acc => .ok acc
  | nm :: rest, acc =>
    match byName pl.partitions nm with
    | none => .unknownName nm (pl.partitions.map (fun p => p.name))
    | some part =>
      match extract_partition sha xz bz file pl part with
      | (ws, none) => extractLoop sha xz bz file pl rest (acc ++ [(nm, ws)])
      | (ws, some e) => .failed (acc ++ [(nm, ws)]) e

/-- `cmd_extract(payload, names, output_dir)`: validate every requested
name first (returning on the first unknown one, before `mkdir` and
before any extraction), then extract the named partitions in order. -/
def cmd_extract (sha : List Nat → List Nat) (xz bz : Codec) (file : List Nat)
    (pl : Payload) (names : List (List Nat)) : ExtractOutcome :=
  match names.find? (fun nm => (byName pl.partitions nm).isNone) with
  | some nm => .unknownName nm (pl.partitions.map (fun p => p.name))
  | none => extractLoop sha xz bz file pl names []

/-- Total byte size of a list of extents, `sum(num_blocks * block_size)`.
Stated from the spec, for comparison with buffer lengths: the source
computes no such sum. -/
def extentBytes (bs : Nat) (exts : List (Nat × Nat)) : Nat :=
  (exts.map (fun e => e.2 * bs)).sum

/-- A concrete container: magic `CrAU`, version 2, a 10-byte manifest,
no signature block.  The manifest declares two partitions (field 13,
tag `0x6A`), each with name field `a` (field 1, tag `0x0A`): two
partitions with the same name. -/
def dupNameContainer : List Nat :=
  [0x43, 0x72, 0x41, 0x55,
   0, 0, 0, 0, 0, 0, 0, 2,
   0, 0, 0, 0, 0, 0, 0, 10,
   0, 0, 0, 0,
   0x6A, 3, 0x0A, 1, 0x61,
   0x6A, 3, 0x0A, 1, 0x61]

/-- Every successful varint consumes at least one byte. -/
theorem readVarintAux_pos (rest : List Nat) :
    ∀ shift acc v c, readVarintAux rest shift acc = .ok (v, c) → 0 < c := by
  induction rest with
  | nil => intro shift acc v c h; simp [readVarintAux] at h
  | cons b r ih =>
    intro shift acc v c h
    simp only [readVarintAux] at h
    split at h
    · simp only [Except.ok.injEq, Prod.mk.injEq] at h
      omega
    · split at h
      · next v2 c2 heq =>
        simp only [Except.ok.injEq, Prod.mk.injEq] at h
        omega
      · exact absurd h (by simp)

/-- A successful varint never consumes more bytes than remain. -/
theorem readVarintAux_le (rest : List Nat) :
    ∀ shift acc v c, readVarintAux rest shift acc = .ok (v, c) → c ≤ rest.length := by
  induction rest with
  | nil => intro shift acc v c h; simp [readVarintAux] at h
  | cons b r ih =>
    intro shift acc v c h
    simp only [readVarintAux] at h
    split at h
    · simp only [Except.ok.injEq, Prod.mk.injEq] at h
      simp only [List.length_cons]
      omega
    · split at h
      · next v2 c2 heq =>
        simp only [Except.ok.injEq, Prod.mk.injEq] at h
        have := ih _ _ v2 c2 heq
        simp only [List.length_cons]
        omega
      · exact absurd h (by simp)

/-- The only varint failure is the truncation error. -/
theorem readVarintAux_error (rest : List Nat) :
    ∀ shift acc e, readVarintAux rest shift acc = .error e → e = .truncatedVarint := by
  induction rest with
  | nil =>
    intro shift acc e h
    simp only [readVarintAux, Except.error.injEq] at h
    exact h.symm
  | cons b r ih =>
    intro shift acc e h
    simp only [readVarintAux] at h
    split at h
    · exact absurd h (by simp)
    · split at h
      · exact absurd h (by simp)
      · next e2 heq =>
        simp only [Except.error.injEq] at h
        exact h ▸ ih _ _ e2 heq

/-- Field-value decoding never reports fuel exhaustion. -/
theorem readFieldValue_ne_outOfFuel (wt : Nat) (rest : List Nat) :
    readFieldValue wt rest ≠ .error .outOfFuel := by
  unfold readFieldValue
  split
  · cases hv : readVarintAux rest 0 0 with
    | ok p => simp
    | error e =>
      have := readVarintAux_error rest 0 0 e hv
      simp [this]
  · split
    · cases hv : readVarintAux rest 0 0 with
      | ok p => simp
      | error e =>
        have := readVarintAux_error rest 0 0 e hv
        simp [this]
    · split
      · split <;> simp
      · split
        · split <;> simp
        · simp

/-- With at least `rest.length` fuel the field loop never exhausts its
recursion bound: every iteration consumes at least the one byte of the
tag varint. -/
theorem iterFieldsAux_ne_outOfFuel :
    ∀ (fuel : Nat) (rest : List Nat), rest.length ≤ fuel →
      iterFieldsAux fuel rest ≠ .error .outOfFuel := by
  intro fuel
  induction fuel with
  | zero =>
    intro rest h
    match rest with
    | [] => simp [iterFieldsAux]
    | b :: r => simp at h
  | succ n ih =>
    intro rest h
    match rest with
    | [] => simp [iterFieldsAux]
    | b :: r =>
      simp only [iterFieldsAux]
      split
      · next e hv =>
        have := readVarintAux_error _ 0 0 e hv
        simp [this]
      · next tag c1 hv =>
        split
        · next e hf =>
          intro hcontra
          simp only [Except.error.injEq] at hcontra
          exact readFieldValue_ne_outOfFuel _ _ (hcontra ▸ hf)
        · next v c2 hf =>
          split
          · next e hrec =>
            intro hcontra
            simp only [Except.error.injEq] at hcontra
            have hc1 : 0 < c1 := readVarintAux_pos _ 0 0 tag c1 hv
            have hlen : ((b :: r).drop (c1 + c2)).length ≤ n := by
              simp only [List.length_drop, List.length_cons]
              simp only [List.length_cons] at h
              omega
            exact ih _ hlen (hcontra ▸ hrec)
          · simp

/-- The name lookup misses exactly when no partition carries the name. -/
theorem byName_eq_none_iff (parts : List Partition) (nm : List Nat) :
    byName parts nm = none ↔ ∀ p ∈ parts, p.name ≠ nm := by
  simp [byName, List.find?_eq_none, List.mem_reverse]

/-- Running a concatenated operation list runs the prefix first and
continues with the suffix only when the prefix succeeded. -/
theorem runOps_append (sha : List Nat → List Nat) (xz bz : Codec) (file : List Nat)
    (dataOffset bs : Nat) (l1 l2 : List Operation) :
    ∀ st, runOps sha xz bz file dataOffset bs (l1 ++ l2) st =
      match runOps sha xz bz file dataOffset bs l1 st with
      | (st2, none) => runOps sha xz bz file dataOffset bs l2 st2
      | (st2, some e) => (st2, some e) := by
  induction l1 with
  | nil => intro st; simp [runOps]
  | cons op t ih =>
    intro st
    simp only [List.cons_append, runOps]
    cases hx : execOp sha xz bz file dataOffset bs op st with
    | mk st2 err =>
      cases err with
      | none => simp [ih st2]
      | some e => simp

/-! ## Claim theorems -/

/-- C1: for a Replace-family operation whose expected digest is
non-empty, the executor computes the digest over the exact compressed
byte slice read from the payload file
(`file[data_offset + op.data_offset :][: op.data_length]`) and fails
with the integrity error on mismatch, leaving the destination state
unchanged — and it does so for every decompressor whatsoever, so the
mismatch is detected before any decompression is attempted.  Mutating a
single byte of the compressed buffer passes silently only if the digest
collides, which for the SHA-256 collaborator is the hypothesis `hmis`
failing. -/
theorem C1_digest_mismatch_fails_before_decompression
    (sha : List Nat → List Nat) (file : List Nat) (dOff bs : Nat)
    (op : Operation) (st : FileWrites)
    (hkind : op.op_type = OP_REPLACE ∨ op.op_type = OP_REPLACE_XZ ∨
      op.op_type = OP_REPLACE_BZ)
    (hdig : op.data_sha256 ≠ [])
    (hmis : sha ((file.drop (dOff + op.data_offset)).take op.data_length) ≠ op.data_sha256) :
    ∀ xz bz : Codec, execOp sha xz bz file dOff bs op st = (st, some .hashMismatch) := by
  intro xz bz
  rcases hkind with h | h | h <;>
    simp [execOp, OP_ZERO, OP_SOURCE_COPY, OP_SOURCE_BSDIFF, OP_PUFFDIFF,
      OP_REPLACE, OP_REPLACE_XZ, OP_REPLACE_BZ, h, hdig, hmis]

/-- C1 witness: a concrete Replace operation with a one-byte expected
digest that the (concrete) hash cannot match. -/
theorem C1_witness :
    ([1] : List Nat) ≠ [] ∧ ([] : List Nat) ≠ [1] ∧
    execOp (fun _ => []) (fun _ => none) (fun _ => none) [] 0 4096
      { op_type := 0, dst_extents := [(0, 1)], data_sha256 := [1] } [] =
      ([], some .hashMismatch) :=
  ⟨by decide, by decide,
    C1_digest_mismatch_fails_before_decompression (fun _ => []) [] 0 4096
      { op_type := 0, dst_extents := [(0, 1)], data_sha256 := [1] } []
      (Or.inl rfl) (by decide) (by decide) (fun _ => none) (fun _ => none)⟩

/-- C2: the executor writes the decompressed buffer by walking the
destination extents in declared order with a cursor advancing through
the buffer: the writes of a concatenated extent list are the writes of
the prefix followed by the writes of the suffix with the cursor
advanced by the prefix's total byte size; and in the synthetic scenario
with extents `[(0,1),(2,1)]` and a buffer of `2*block_size` bytes, the
first half lands at block 0, the second half at block 2, and no write
of the operation touches any byte of block 1. -/
theorem C2_extents_partition_buffer_in_order :
    (∀ (bs : Nat) (data : List Nat) (pos : Nat) (e1 e2 : List (Nat × Nat)),
      writeExtents bs (e1 ++ e2) data pos =
        writeExtents bs e1 data pos ++
          writeExtents bs e2 data (pos + extentBytes bs e1)) ∧
    (∀ (bs : Nat) (data : List Nat), 0 < bs → data.length = 2 * bs →
      writeExtents bs [(0, 1), (2, 1)] data 0 =
        [(0, data.take bs), (2 * bs, data.drop bs)] ∧
      ∀ w ∈ writeExtents bs [(0, 1), (2, 1)] data 0, ∀ k, bs ≤ k → k < 2 * bs →
        ¬(w.1 ≤ k ∧ k < w.1 + w.2.length)) := by
  constructor
  · intro bs data pos e1 e2
    induction e1 generalizing pos with
    | nil => simp [writeExtents, extentBytes]
    | cons e t ih =>
      obtain ⟨s, n⟩ := e
      simp only [List.cons_append, writeExtents, extentBytes, List.map_cons,
        List.sum_cons, List.append_eq] at ih ⊢
      rw [ih]
      have : pos + n * bs + (t.map (fun e => e.2 * bs)).sum =
          pos + (n * bs + (t.map (fun e => e.2 * bs)).sum) := by omega
      rw [this]
  · intro bs data hbs hlen
    have hdrop : (data.drop bs).take bs = data.drop bs := by
      apply List.take_of_length_le
      simp [hlen]
      omega
    have hev : writeExtents bs [(0, 1), (2, 1)] data 0 =
        [(0, data.take bs), (2 * bs, data.drop bs)] := by
      simp [writeExtents, hdrop]
    refine ⟨hev, ?_⟩
    intro w hw k hk1 hk2
    rw [hev] at hw
    have h1 : (data.take bs).length = bs := by
      simp [hlen]
      omega
    have h2 : (data.drop bs).length = bs := by
      simp [hlen]
      omega
    rcases List.mem_pair.mp hw with h | h <;> subst h <;> simp [h1, h2] <;> omega

/-- C2 witness: the cursor law at one concrete split, and the synthetic
two-extent scenario at `block_size = 1` with buffer `[7, 9]`. -/
theorem C2_witness :
    writeExtents 1 ([(0, 1)] ++ [(3, 2)]) [5] 0 =
      writeExtents 1 [(0, 1)] [5] 0 ++
        writeExtents 1 [(3, 2)] [5] (0 + extentBytes 1 [(0, 1)]) ∧
    0 < 1 ∧ ([7, 9] : List Nat).length = 2 * 1 ∧
    writeExtents 1 [(0, 1), (2, 1)] [7, 9] 0 = [(0, [7]), (2, [9])] :=
  ⟨C2_extents_partition_buffer_in_order.1 1 [5] 0 [(0, 1)] [(3, 2)],
    by decide, by decide,
    (C2_extents_partition_buffer_in_order.2 1 [7, 9] (by decide) (by decide)).1⟩

/-- C3 counterexample: a Replace operation whose (empty) buffer is
shorter than its single extent of 4096 bytes completes successfully —
the executor accepts a buffer whose length differs from the total
extent size, writing the truncated slice.  This refutes the claim that
such a buffer is not accepted as a successful write. -/
theorem C3_counterexample :
    execOp (fun _ => []) (fun _ => none) (fun _ => none) [] 0 4096
      { op_type := 0, dst_extents := [(0, 1)] } [] = ([(0, [])], none) ∧
    ([] : List Nat).length ≠ extentBytes 4096 [(0, 1)] := by
  constructor
  · decide
  · decide

/-- C3 amended: the executor performs no validation of the decompressed
buffer's length against the total extent size.  A Replace operation
with no digest always completes successfully, whatever the relation
between its data length and its extents, each extent receiving at most
its declared byte count from the cursor. -/
theorem C3_no_length_validation
    (sha : List Nat → List Nat) (xz bz : Codec) (file : List Nat)
    (dOff bs : Nat) (op : Operation) (st : FileWrites)
    (hkind : op.op_type = OP_REPLACE) (hdig : op.data_sha256 = []) :
    execOp sha xz bz file dOff bs op st =
      (st ++ writeExtents bs op.dst_extents
        ((file.drop (dOff + op.data_offset)).take op.data_length) 0, none) := by
  simp [execOp, decompress, OP_ZERO, OP_SOURCE_COPY, OP_SOURCE_BSDIFF,
    OP_PUFFDIFF, OP_REPLACE, hkind, hdig]

/-- C3 witness: a Replace operation whose buffer length (0) differs
from its extent total (4096) nevertheless succeeds. -/
theorem C3_witness :
    (({ op_type := 0, dst_extents := [(0, 1)] } : Operation).op_type = OP_REPLACE) ∧
    (({ op_type := 0, dst_extents := [(0, 1)] } : Operation).data_sha256 = []) ∧
    execOp (fun _ => [7]) (fun _ => none) (fun _ => none) [] 0 4096
      { op_type := 0, dst_extents := [(0, 1)] } [] =
      ([] ++ writeExtents 4096 [(0, 1)] (([] : List Nat).take 0) 0, none) :=
  ⟨by decide, by decide,
    C3_no_length_validation (fun _ => [7]) (fun _ => none) (fun _ => none) [] 0 4096
      { op_type := 0, dst_extents := [(0, 1)] } [] rfl rfl⟩

/-- C4 counterexample: a Zstd operation (tag 14) carrying a one-byte
expected digest (which no SHA-256 digest, being 32 bytes, can equal —
the concrete hash collaborator here cannot either) fails with the
hash-mismatch error, not with an unsupported-kind condition: for the
recognized-but-unimplemented kinds outside {SourceCopy, SourceBsdiff,
Puffdiff} the executor reads the source data and verifies the digest
first, so it does not fail immediately with `UnsupportedOperation`. -/
theorem C4_counterexample :
    execOp (fun _ => []) (fun _ => none) (fun _ => none) [] 0 4096
      { op_type := 14, dst_extents := [(0, 1)], data_sha256 := [1] } [] =
      ([], some .hashMismatch) ∧
    OpErr.hashMismatch ≠ OpErr.decompFailed (.unsupported 14) ∧
    OpErr.hashMismatch ≠ OpErr.incremental 14 := by
  refine ⟨by decide, by decide, by decide⟩

/-- C4 amended: the three incremental kinds (SourceCopy, SourceBsdiff,
Puffdiff) fail immediately with the incremental-unsupported error
naming the kind, before any source read and with no write for the
operation; every other recognized-but-unimplemented kind (Zstd, Lz4,
and any unknown tag) first reads the source data and verifies the
digest — a mismatch reports the integrity error instead — and then
fails in `decompress` with the unsupported error naming the kind.  In
all cases the destination state is unchanged by the failing
operation. -/
theorem C4_unimplemented_kinds_fail_without_writes
    (sha : List Nat → List Nat) (xz bz : Codec) (file : List Nat)
    (dOff bs : Nat) (op : Operation) (st : FileWrites) :
    (op.op_type = OP_SOURCE_COPY ∨ op.op_type = OP_SOURCE_BSDIFF ∨
        op.op_type = OP_PUFFDIFF →
      execOp sha xz bz file dOff bs op st = (st, some (.incremental op.op_type))) ∧
    (op.op_type ∉ ([OP_REPLACE, OP_REPLACE_BZ, OP_SOURCE_COPY, OP_SOURCE_BSDIFF,
        OP_ZERO, OP_REPLACE_XZ, OP_PUFFDIFF] : List Nat) →
      ¬(op.data_sha256 ≠ [] ∧
        sha ((file.drop (dOff + op.data_offset)).take op.data_length) ≠ op.data_sha256) →
      execOp sha xz bz file dOff bs op st =
        (st, some (.decompFailed (.unsupported op.op_type)))) := by
  constructor
  · intro hkind
    have hz : op.op_type ≠ OP_ZERO := by
      rcases hkind with h | h | h <;>
        simp [h, OP_ZERO, OP_SOURCE_COPY, OP_SOURCE_BSDIFF, OP_PUFFDIFF]
    simp [execOp, hz, hkind]
  · intro hkind hdig
    simp only [List.mem_cons, List.not_mem_nil, or_false, not_or, OP_REPLACE,
      OP_REPLACE_BZ, OP_SOURCE_COPY, OP_SOURCE_BSDIFF, OP_ZERO, OP_REPLACE_XZ,
      OP_PUFFDIFF] at hkind
    obtain ⟨h0, h1, h4, h5, h6, h8, h9⟩ := hkind
    simp [execOp, decompress, OP_REPLACE, OP_REPLACE_BZ, OP_SOURCE_COPY,
      OP_SOURCE_BSDIFF, OP_ZERO, OP_REPLACE_XZ, OP_PUFFDIFF,
      h0, h1, h4, h5, h6, h8, h9, hdig]

/-- C4 witness: the incremental branch at kind 4 and the lazy
unsupported branch at kind 14 with no digest, both at concrete
inputs. -/
theorem C4_witness :
    execOp (fun _ => []) (fun _ => none) (fun _ => none) [] 0 4096
      { op_type := 4, dst_extents := [(0, 1)] } [] = ([], some (.incremental 4)) ∧
    execOp (fun _ => []) (fun _ => none) (fun _ => none) [] 0 4096
      { op_type := 14, dst_extents := [(0, 1)] } [] =
      ([], some (.decompFailed (.unsupported 14))) :=
  ⟨(C4_unimplemented_kinds_fail_without_writes (fun _ => []) (fun _ => none)
      (fun _ => none) [] 0 4096 { op_type := 4, dst_extents := [(0, 1)] } []).1
      (Or.inl rfl),
    (C4_unimplemented_kinds_fail_without_writes (fun _ => []) (fun _ => none)
      (fun _ => none) [] 0 4096 { op_type := 14, dst_extents := [(0, 1)] } []).2
      (by decide) (by decide)⟩

/-- C5 counterexample: the buffer `[0x0A, 0x05]` declares a
length-delimited field (field 1, wire type 2) of 5 bytes with nothing
after the length — the decoder needs bytes past the end of the buffer,
yet `iter_fields` yields the truncated (empty) payload and terminates
successfully instead of failing. -/
theorem C5_counterexample :
    iter_fields [10, 5] = .ok [(1, .bytes [])] ∧
    iter_fields [10, 5] ≠ .error .truncatedVarint := by
  refine ⟨by decide, by decide⟩

/-- C5 amended: a varint that runs past the end of the buffer fails
with the truncation error, and a fixed 64-bit or 32-bit value with
fewer than 8 or 4 remaining bytes fails with the struct unpack error;
but the payload of a length-delimited field is silently clamped to the
remaining bytes — the decoder yields the truncated value and
succeeds. -/
theorem C5_truncation_fails_except_length_delimited :
    (∀ rest : List Nat, (∀ b ∈ rest, 128 ≤ b) → ∀ shift acc,
      readVarintAux rest shift acc = .error .truncatedVarint) ∧
    (∀ rest : List Nat, rest.length < 8 →
      readFieldValue 1 rest = .error (.structError 8)) ∧
    (∀ rest : List Nat, rest.length < 4 →
      readFieldValue 5 rest = .error (.structError 4)) ∧
    (∀ (rest : List Nat) (L c : Nat), readVarintAux rest 0 0 = .ok (L, c) →
      readFieldValue 2 rest = .ok (.bytes ((rest.drop c).take L), c + L) ∧
      (rest.length < c + L → ((rest.drop c).take L).length < L)) := by
  refine ⟨?_, ?_, ?_, ?_⟩
  · intro rest
    induction rest with
    | nil => intro h shift acc; simp [readVarintAux]
    | cons b r ih =>
      intro h shift acc
      have hb : ¬ b < 128 := by
        have := h b (by simp)
        omega
      have hr : ∀ x ∈ r, 128 ≤ x := fun x hx => h x (by simp [hx])
      simp [readVarintAux, hb, ih hr]
  · intro rest h
    have : ¬ 8 ≤ rest.length := by omega
    simp [readFieldValue, this]
  · intro rest h
    have : ¬ 4 ≤ rest.length := by omega
    simp [readFieldValue, this]
  · intro rest L c h
    refine ⟨by simp [readFieldValue, h], ?_⟩
    intro hshort
    have hc := readVarintAux_le rest 0 0 L c h
    simp only [List.length_take, List.length_drop]
    omega

/-- C5 witness: a lone continuation byte fails as truncated; 3 bytes
cannot hold a fixed 64-bit value and 1 byte cannot hold a fixed 32-bit
value; a declared 5-byte payload with 0 bytes remaining yields the
clamped empty value successfully. -/
theorem C5_witness :
    readVarintAux [200] 0 0 = .error .truncatedVarint ∧
    readFieldValue 1 [1, 2, 3] = .error (.structError 8) ∧
    readFieldValue 5 [1] = .error (.structError 4) ∧
    readFieldValue 2 [5] = .ok (.bytes [], 1 + 5) ∧
    (([5] : List Nat).length < 1 + 5 → ((([5] : List Nat).drop 1).take 5).length < 5) :=
  ⟨C5_truncation_fails_except_length_delimited.1 [200] (by decide) 0 0,
    C5_truncation_fails_except_length_delimited.2.1 [1, 2, 3] (by decide),
    C5_truncation_fails_except_length_delimited.2.2.1 [1] (by decide),
    (C5_truncation_fails_except_length_delimited.2.2.2 [5] 5 1 (by decide)).1,
    (C5_truncation_fails_except_length_delimited.2.2.2 [5] 5 1 (by decide)).2⟩

/-- C6 counterexample: a container whose manifest declares two
partitions both named `a` loads successfully — no malformed-input
failure occurs, and the loaded payload contains two partitions with
equal names, refuting both halves of the claim. -/
theorem C6_counterexample :
    load_payload dupNameContainer =
      .ok { data_offset := 34, block_size := 4096,
            partitions := [{ name := [97] }, { name := [97] }] } := by
  decide

/-- C6 amended: loading performs no uniqueness check on partition
names: duplicates are retained in manifest order (listing shows both
rows), and the extraction-side name lookup resolves a duplicated name
to the last partition carrying it. -/
theorem C6_duplicate_names_retained_lookup_last_wins :
    ((load_payload dupNameContainer).map cmd_list =
      .ok [([97], 0, 0), ([97], 0, 0)]) ∧
    (∀ (ps1 ps2 : List Partition) (p : Partition),
      (∀ q ∈ ps2, q.name ≠ p.name) →
      byName (ps1 ++ p :: ps2) p.name = some p) := by
  constructor
  · decide
  · intro ps1 ps2 p h
    have h2 : ps2.reverse.find? (fun q => q.name == p.name) = none := by
      rw [List.find?_eq_none]
      intro x hx
      simp only [beq_iff_eq]
      exact h x (List.mem_reverse.mp hx)
    simp [byName, List.find?_append, h2, List.find?]

/-- C6 witness: with two partitions both named `a`, the lookup returns
the later one. -/
theorem C6_witness :
    byName [{ name := [97] }, { name := [97], size := 1 }] [97] =
      some { name := [97], size := 1 } :=
  C6_duplicate_names_retained_lookup_last_wins.2 [{ name := [97] }] []
    { name := [97], size := 1 } (by simp)

/-- C7: when any requested partition name is absent from the payload,
`cmd_extract` fails on the first such name, reporting the available
names, and its outcome carries no destination events: validation of
every requested name precedes the directory creation and every
per-partition extraction, so nothing is extracted and no file or
directory is created — not even for the requested names that do
exist. -/
theorem C7_unknown_name_fails_before_any_extraction
    (sha : List Nat → List Nat) (xz bz : Codec) (file : List Nat)
    (pl : Payload) (names : List (List Nat))
    (h : ∃ nm ∈ names, ∀ p ∈ pl.partitions, p.name ≠ nm) :
    ∃ nm0 ∈ names, (∀ p ∈ pl.partitions, p.name ≠ nm0) ∧
      cmd_extract sha xz bz file pl names =
        .unknownName nm0 (pl.partitions.map (fun p => p.name)) ∧
      eventsOf (cmd_extract sha xz bz file pl names) = [] := by
  obtain ⟨nm, hmem, hmiss⟩ := h
  have hpred : (byName pl.partitions nm).isNone = true := by
    rw [Option.isNone_iff_eq_none, byName_eq_none_iff]
    exact hmiss
  have hsome : (names.find? (fun nm => (byName pl.partitions nm).isNone)).isSome := by
    rw [List.find?_isSome]
    exact ⟨nm, hmem, hpred⟩
  obtain ⟨nm0, hfind⟩ := Option.isSome_iff_exists.mp hsome
  have hmiss0 : ∀ p ∈ pl.partitions, p.name ≠ nm0 := by
    have hp := List.find?_some hfind
    simp only at hp
    rw [Option.isNone_iff_eq_none, byName_eq_none_iff] at hp
    exact hp
  have hout : cmd_extract sha xz bz file pl names =
      .unknownName nm0 (pl.partitions.map (fun p => p.name)) := by
    unfold cmd_extract
    rw [hfind]
  exact ⟨nm0, List.mem_of_find?_eq_some hfind, hmiss0, hout, by rw [hout]; rfl⟩

/-- C7 witness: requesting name `b` from a payload holding only `a`
fails with the unknown-name outcome listing `a`, with no events. -/
theorem C7_witness :
    (∃ nm ∈ ([[98]] : List (List Nat)),
      ∀ p ∈ ({ partitions := [{ name := [97] }] } : Payload).partitions, p.name ≠ nm) ∧
    ∃ nm0 ∈ ([[98]] : List (List Nat)),
      (∀ p ∈ ({ partitions := [{ name := [97] }] } : Payload).partitions, p.name ≠ nm0) ∧
      cmd_extract (fun _ => []) (fun _ => none) (fun _ => none) []
        { partitions := [{ name := [97] }] } [[98]] =
        .unknownName nm0 [[97]] ∧
      eventsOf (cmd_extract (fun _ => []) (fun _ => none) (fun _ => none) []
        { partitions := [{ name := [97] }] } [[98]]) = [] :=
  ⟨⟨[98], by simp, by decide⟩,
    C7_unknown_name_fails_before_any_extraction (fun _ => []) (fun _ => none)
      (fun _ => none) [] { partitions := [{ name := [97] }] } [[98]]
      ⟨[98], by simp, by decide⟩⟩

/-- C8: an operation whose kind tag is unrecognized parses
successfully, storing the numeric tag (here: any operation message
whose decoded fields are exactly a kind field with value `k` parses to
the default operation with `op_type = k`, whatever `k`); listing is a
total function with one row per partition, so a payload holding
unsupported operations lists without error; and failure surfaces only
when such an operation is executed — executing any operation whose
kind is outside the four implemented ones always yields an error. -/
theorem C8_unknown_kind_stored_fails_only_on_execution :
    (∀ (data : List Nat) (k : Nat), iter_fields data = .ok [(1, .int k)] →
      parse_operation data = .ok { op_type := k }) ∧
    (∀ pl : Payload, (cmd_list pl).length = pl.partitions.length) ∧
    (∀ (sha : List Nat → List Nat) (xz bz : Codec) (file : List Nat)
        (dOff bs : Nat) (op : Operation) (st : FileWrites),
      op.op_type ∉ ([OP_REPLACE, OP_REPLACE_BZ, OP_ZERO, OP_REPLACE_XZ] : List Nat) →
      ((execOp sha xz bz file dOff bs op st).2).isSome) := by
  refine ⟨?_, ?_, ?_⟩
  · intro data k h
    simp [parse_operation, h, applyOpField, List.foldlM]
  · intro pl
    simp [cmd_list]
  · intro sha xz bz file dOff bs op st hk
    simp only [List.mem_cons, List.not_mem_nil, or_false, not_or, OP_REPLACE,
      OP_REPLACE_BZ, OP_ZERO, OP_REPLACE_XZ] at hk
    obtain ⟨h0, h1, h6, h8⟩ := hk
    by_cases h459 : op.op_type = OP_SOURCE_COPY ∨ op.op_type = OP_SOURCE_BSDIFF ∨
        op.op_type = OP_PUFFDIFF
    · simp [execOp, OP_ZERO, h6, h459]
    · by_cases hd : op.data_sha256 ≠ [] ∧
          sha ((file.drop (dOff + op.data_offset)).take op.data_length) ≠ op.data_sha256
      · simp [execOp, OP_ZERO, h6, h459, hd]
      · simp [execOp, decompress, OP_ZERO, OP_REPLACE, OP_REPLACE_XZ,
          OP_REPLACE_BZ, h6, h459, hd, h0, h1, h8]

/-- C8 witness: the two-byte operation message `[0x08, 14]` (kind field
with the unsupported Zstd tag) parses successfully storing 14, and
executing a kind-14 operation fails. -/
theorem C8_witness :
    iter_fields [8, 14] = .ok [(1, .int 14)] ∧
    parse_operation [8, 14] = .ok { op_type := 14 } ∧
    (14 : Nat) ∉ ([OP_REPLACE, OP_REPLACE_BZ, OP_ZERO, OP_REPLACE_XZ] : List Nat) ∧
    ((execOp (fun _ => []) (fun _ => none) (fun _ => none) [] 0 4096
      { op_type := 14 } []).2).isSome :=
  ⟨by decide,
    C8_unknown_kind_stored_fails_only_on_execution.1 [8, 14] 14 (by decide),
    by decide,
    C8_unknown_kind_stored_fails_only_on_execution.2.2 (fun _ => []) (fun _ => none)
      (fun _ => none) [] 0 4096 { op_type := 14 } [] (by decide)⟩

/-- C9: if an operation fails its digest check or its decompression,
the executor issues no write for that operation: extracting a
partition whose operations are the successful prefix `ops1` followed
by the failing `op` (and anything after) stops with an error and a
destination state exactly equal to the state the prefix alone
produced. -/
theorem C9_failing_operation_leaves_prior_state
    (sha : List Nat → List Nat) (xz bz : Codec) (file : List Nat) (pl : Payload)
    (ops1 ops2 : List Operation) (op : Operation) (nm : List Nat) (sz : Nat)
    (st1 : FileWrites)
    (hprior : runOps sha xz bz file pl.data_offset pl.block_size ops1 [] = (st1, none))
    (hkind : op.op_type ≠ OP_ZERO ∧ op.op_type ≠ OP_SOURCE_COPY ∧
      op.op_type ≠ OP_SOURCE_BSDIFF ∧ op.op_type ≠ OP_PUFFDIFF)
    (hfail : (op.data_sha256 ≠ [] ∧
        sha ((file.drop (pl.data_offset + op.data_offset)).take op.data_length) ≠
          op.data_sha256) ∨
      ∃ e, decompress xz bz
        ((file.drop (pl.data_offset + op.data_offset)).take op.data_length)
        op.op_type = .error e) :
    ∃ err, extract_partition sha xz bz file pl
      { name := nm, operations := ops1 ++ op :: ops2, size := sz } =
      (st1, some err) := by
  obtain ⟨hz, h4, h5, h9⟩ := hkind
  have hstep : ∃ err,
      execOp sha xz bz file pl.data_offset pl.block_size op st1 = (st1, some err) := by
    by_cases hd : op.data_sha256 ≠ [] ∧
        sha ((file.drop (pl.data_offset + op.data_offset)).take op.data_length) ≠
          op.data_sha256
    · exact ⟨.hashMismatch, by simp [execOp, hz, h4, h5, h9, hd]⟩
    · rcases hfail with hmis | ⟨e, hdec⟩
      · exact absurd hmis hd
      · exact ⟨.decompFailed e, by simp [execOp, hz, h4, h5, h9, hd, hdec]⟩
  obtain ⟨err, hstep⟩ := hstep
  refine ⟨err, ?_⟩
  unfold extract_partition
  simp only
  rw [runOps_append]
  rw [hprior]
  simp only [runOps, hstep]

/-- C9 witness: after a successful Zero operation, a Replace operation
with an impossible one-byte digest fails and the destination state is
exactly the Zero write. -/
theorem C9_witness :
    runOps (fun _ => []) (fun _ => none) (fun _ => none) []
      ({ data_offset := 0, block_size := 1 } : Payload).data_offset
      ({ data_offset := 0, block_size := 1 } : Payload).block_size
      [{ op_type := 6, dst_extents := [(0, 1)] }] [] = ([(0, [0])], none) ∧
    ∃ err, extract_partition (fun _ => []) (fun _ => none) (fun _ => none) []
      { data_offset := 0, block_size := 1 }
      { name := [97],
        operations := [{ op_type := 6, dst_extents := [(0, 1)] }] ++
          { op_type := 0, dst_extents := [(0, 1)], data_sha256 := [1] } ::
          [{ op_type := 6, dst_extents := [(2, 1)] }],
        size := 0 } =
      ([(0, [0])], some err) :=
  ⟨by decide,
    C9_failing_operation_leaves_prior_state (fun _ => []) (fun _ => none)
      (fun _ => none) [] { data_offset := 0, block_size := 1 }
      [{ op_type := 6, dst_extents := [(0, 1)] }]
      [{ op_type := 6, dst_extents := [(2, 1)] }]
      { op_type := 0, dst_extents := [(0, 1)], data_sha256 := [1] }
      [97] 0 [(0, [0])] (by decide) (by decide) (Or.inl (by decide))⟩

/-- C10: the field iteration always terminates: every successfully
decoded varint — in particular every field's leading tag — consumes at
least one byte, so each decoded field strictly advances the cursor;
consequently a recursion bound of the buffer length is never exhausted
and `iter_fields` always yields a finite field list or one of the
decoding errors, never the fuel marker. -/
theorem C10_field_iteration_terminates :
    (∀ (rest : List Nat) (shift acc v c : Nat),
      readVarintAux rest shift acc = .ok (v, c) → 0 < c) ∧
    (∀ (fuel : Nat) (rest : List Nat), rest.length ≤ fuel →
      iterFieldsAux fuel rest ≠ .error .outOfFuel) ∧
    (∀ data : List Nat, iter_fields data ≠ .error .outOfFuel) :=
  ⟨fun rest => readVarintAux_pos rest,
    iterFieldsAux_ne_outOfFuel,
    fun data => iterFieldsAux_ne_outOfFuel data.length data le_rfl⟩

/-- C10 witness: a two-byte varint consumes two bytes (strictly
positive), and iterating a concrete two-byte buffer with exactly its
length as bound does not exhaust it. -/
theorem C10_witness :
    readVarintAux [150, 1] 0 0 = .ok (150, 2) ∧ 0 < 2 ∧
    ([8, 14] : List Nat).length ≤ 2 ∧
    iterFieldsAux 2 [8, 14] ≠ .error .outOfFuel :=
  ⟨by decide,
    C10_field_iteration_terminates.1 [150, 1] 0 0 150 2 (by decide),
    by decide,
    C10_field_iteration_terminates.2.1 2 [8, 14] (by decide)⟩

end PayloadExtractor
